import Mathlib

/-
Verification of the SecretSphere confidential lottery contract
(src/contracts/SecretSphere.sol), a shallow embedding.

Ciphertexts of type euint32 are modeled by the plaintext value they encrypt
(a natural number below 2^32, with wrapping arithmetic made explicit as
remainders modulo 2^32) together with the list of identities holding decrypt
capability on the handle, as granted by FHE.allowThis / FHE.allow. Encrypted
booleans (ebool) are modeled by their plaintext truth value. The random
source FHE.randEuint32 is modeled by an arbitrary natural number supplied as
an input, and the success of the external ether transfer in withdraw by a
boolean input. Addresses are natural numbers, 0 standing for the zero
address. Each external function becomes a Lean function from the contract
state and the call arguments to Except Err ContractState: an error value
models a revert, in which case the whole transaction leaves the state
unchanged (applyOp).
-/

namespace SecretSphere

/-- Width bound of the euint32 plaintext space: values live below 2 ^ 32 and
homomorphic addition wraps at this modulus. -/
def W32 : Nat := 2 ^ 32

/-- An identity holding decrypt capability on a ciphertext handle: the
contract itself (granted by FHE.allowThis) or an account address (granted by
FHE.allow). -/
inductive Grantee where
  | system : Grantee
  | user : Nat → Grantee
deriving DecidableEq

/-- Model of a euint32 ciphertext handle: the plaintext value it encrypts and
the identities currently granted decrypt capability on it. Every freshly
produced handle starts with no grants. -/
structure Cipher where
  val : Nat
  acl : List Grantee
deriving DecidableEq

/-- The zero handle that an unwritten euint32 storage slot reads back as. -/
def zeroCipher : Cipher := ⟨0, []⟩

namespace FHE

/-- FHE.asEuint32: trivial encryption of a plaintext constant. -/
def asEuint32 (n : Nat) : Cipher := ⟨n % W32, []⟩

/-- FHE.fromExternal: import of a client-supplied ciphertext carrying the
given plaintext (proof validation is modeled at the call site). -/
def fromExternal (v : Nat) : Cipher := ⟨v % W32, []⟩

/-- FHE.randEuint32: the encrypted random source, modeled by an arbitrary
natural number input reduced to the euint32 range. -/
def randEuint32 (r : Nat) : Cipher := ⟨r % W32, []⟩

/-- FHE.add on euint32: wrapping addition modulo 2 ^ 32, yielding a fresh
handle with no grants. -/
def add (a b : Cipher) : Cipher := ⟨(a.val + b.val) % W32, []⟩

/-- FHE.rem with a plaintext modulus, yielding a fresh handle. -/
def rem (a : Cipher) (m : Nat) : Cipher := ⟨a.val % m, []⟩

/-- FHE.eq on euint32: the resulting ebool modeled by its plaintext truth
value. -/
def eq (a b : Cipher) : Bool := a.val == b.val

/-- FHE.select: encrypted multiplexer, yielding a fresh handle. -/
def select (c : Bool) (a b : Cipher) : Cipher := ⟨if c then a.val else b.val, []⟩

/-- FHE.allowThis: grant the contract itself decrypt capability on the
handle. -/
def allowThis (a : Cipher) : Cipher := ⟨a.val, a.acl ++ [Grantee.system]⟩

/-- FHE.allow: grant an account decrypt capability on the handle. -/
def allow (a : Cipher) (who : Nat) : Cipher := ⟨a.val, a.acl ++ [Grantee.user who]⟩

end FHE

/-- The per-address PlayerState struct. A ciphertext field holds none until
the contract first writes it (the Solidity default slot, read back as the
zero handle through Option.getD zeroCipher). -/
structure PlayerState where
  firstGuess : Option Cipher
  secondGuess : Option Cipher
  encryptedPoints : Option Cipher
  lastWinningFirst : Option Cipher
  lastWinningSecond : Option Cipher
  hasTicket : Bool
  hasResult : Bool
  hasPoints : Bool
deriving DecidableEq

/-- The record a mapping key that was never written reads back as. -/
def emptyPlayer : PlayerState := ⟨none, none, none, none, none, false, false, false⟩

/-- TICKET_PRICE = 0.001 ether, in wei. -/
def TICKET_PRICE : Nat := 10 ^ 15

/-- The contract state: owner, the two global counters, the ether balance
held by the contract, and the players mapping. -/
structure ContractState where
  owner : Nat
  totalTickets : Nat
  totalDraws : Nat
  balance : Nat
  players : Nat → PlayerState

/-- State right after deployment: the constructor sets owner to the
deployer, counters and balance start at zero, the mapping is empty. -/
def initState (deployer : Nat) : ContractState :=
  ⟨deployer, 0, 0, 0, fun _ => emptyPlayer⟩

/-- Write one entry of the players mapping. -/
def setPlayer (s : ContractState) (a : Nat) (p : PlayerState) : ContractState :=
  { s with players := fun x => if x = a then p else s.players x }

/-- The revert reasons of the contract, named as the specification names
them. -/
inductive Err where
  | InvalidPayment : Err
  | TicketAlreadyActive : Err
  | ProofInvalid : Err
  | NoActiveTicket : Err
  | NotOwner : Err
  | InvalidRecipient : Err
  | InsufficientBalance : Err
  | TransferFailed : Err
deriving DecidableEq

/-- The private helper _randomTicketNumber: remainder of the random euint32
modulo 9, plus an encrypted constant 1. The argument r models the output of
the underlying random source. -/
def _randomTicketNumber (r : Nat) : Cipher :=
  let raw := FHE.randEuint32 r
  let bounded := FHE.rem raw 9
  FHE.add bounded (FHE.asEuint32 1)

/-- The private helper _calculateReward: counts encrypted coordinate matches
and selects the reward tier 1000 / 100 / 0, entirely through FHE.select. -/
def _calculateReward (guessOne guessTwo winningFirst winningSecond : Cipher) : Cipher :=
  let firstMatch := FHE.eq guessOne winningFirst
  let secondMatch := FHE.eq guessTwo winningSecond
  let matchCount :=
    FHE.add (FHE.select firstMatch (FHE.asEuint32 1) (FHE.asEuint32 0))
      (FHE.select secondMatch (FHE.asEuint32 1) (FHE.asEuint32 0))
  let doubleMatch := FHE.eq matchCount (FHE.asEuint32 2)
  let singleMatch := FHE.eq matchCount (FHE.asEuint32 1)
  FHE.select doubleMatch (FHE.asEuint32 1000)
    (FHE.select singleMatch (FHE.asEuint32 100) (FHE.asEuint32 0))

/-- buyTicket: requires msg.value equal to TICKET_PRICE, no active ticket,
and a valid input proof (FHE.fromExternal reverts on a bad proof, modeled by
the proofOk input); stores the two imported guesses, sets hasTicket and
clears hasResult, grants the contract and the caller decrypt capability on
both new handles, increments totalTickets and credits the payment to the
contract balance. -/
def buyTicket (s : ContractState) (sender msgValue firstChoice secondChoice : Nat)
    (proofOk : Bool) : Except Err ContractState :=
  if msgValue ≠ TICKET_PRICE then Except.error Err.InvalidPayment else
  if (s.players sender).hasTicket then Except.error Err.TicketAlreadyActive else
  if ¬ proofOk then Except.error Err.ProofInvalid else
  let encryptedFirst := FHE.fromExternal firstChoice
  let encryptedSecond := FHE.fromExternal secondChoice
  let storedFirst := FHE.allow (FHE.allowThis encryptedFirst) sender
  let storedSecond := FHE.allow (FHE.allowThis encryptedSecond) sender
  let player := s.players sender
  let player1 : PlayerState :=
    { player with
      firstGuess := some storedFirst
      secondGuess := some storedSecond
      hasTicket := true
      hasResult := false }
  Except.ok
    { setPlayer s sender player1 with
      totalTickets := s.totalTickets + 1
      balance := s.balance + msgValue }

/-- startDraw: requires an active ticket; draws two winning digits, stores
them with grants for the contract and the caller, flips hasTicket off and
hasResult on, computes the reward from the stored guesses and accrues it
into encryptedPoints (homomorphic add when hasPoints already holds, direct
assignment otherwise; hasPoints ends true either way), grants the contract
and the caller decrypt capability on the new points handle, and increments
totalDraws. The arguments r1 and r2 model the two outputs of the random
source. -/
def startDraw (s : ContractState) (sender r1 r2 : Nat) : Except Err ContractState :=
  let player := s.players sender
  if ¬ player.hasTicket then Except.error Err.NoActiveTicket else
  let winningFirst := _randomTicketNumber r1
  let winningSecond := _randomTicketNumber r2
  let storedWinFirst := FHE.allow (FHE.allowThis winningFirst) sender
  let storedWinSecond := FHE.allow (FHE.allowThis winningSecond) sender
  let reward := _calculateReward (player.firstGuess.getD zeroCipher)
    (player.secondGuess.getD zeroCipher) winningFirst winningSecond
  let newPoints :=
    if player.hasPoints then FHE.add (player.encryptedPoints.getD zeroCipher) reward
    else reward
  let storedPoints := FHE.allow (FHE.allowThis newPoints) sender
  let player1 : PlayerState :=
    { player with
      lastWinningFirst := some storedWinFirst
      lastWinningSecond := some storedWinSecond
      hasTicket := false
      hasResult := true
      encryptedPoints := some storedPoints
      hasPoints := true }
  Except.ok { setPlayer s sender player1 with totalDraws := s.totalDraws + 1 }

/-- withdraw: only the owner, a nonzero recipient, an amount within the held
balance; the external call success is modeled by the transferOk input. The
source names the recipient parameter to, a reserved word here. -/
def withdraw (s : ContractState) (sender recipient amount : Nat) (transferOk : Bool) :
    Except Err ContractState :=
  if sender ≠ s.owner then Except.error Err.NotOwner else
  if recipient = 0 then Except.error Err.InvalidRecipient else
  if s.balance < amount then Except.error Err.InsufficientBalance else
  if ¬ transferOk then Except.error Err.TransferFailed else
  Except.ok { s with balance := s.balance - amount }

/-- getTicket view. The requester argument models msg.sender of the call,
which the function body never reads; the returned state models the post-call
state of a view call. -/
def getTicket (s : ContractState) (requester user : Nat) :
    (Cipher × Cipher × Bool) × ContractState :=
  let player := s.players user
  ((player.firstGuess.getD zeroCipher, player.secondGuess.getD zeroCipher,
    player.hasTicket), s)

/-- getLastWinningNumbers view. -/
def getLastWinningNumbers (s : ContractState) (requester user : Nat) :
    (Cipher × Cipher × Bool) × ContractState :=
  let player := s.players user
  ((player.lastWinningFirst.getD zeroCipher, player.lastWinningSecond.getD zeroCipher,
    player.hasResult), s)

/-- getEncryptedPoints view. -/
def getEncryptedPoints (s : ContractState) (requester user : Nat) :
    (Cipher × Bool) × ContractState :=
  let player := s.players user
  ((player.encryptedPoints.getD zeroCipher, player.hasPoints), s)

/-- getPlayerStatus view. -/
def getPlayerStatus (s : ContractState) (requester user : Nat) :
    (Bool × Bool × Bool) × ContractState :=
  let player := s.players user
  ((player.hasTicket, player.hasResult, player.hasPoints), s)

/-- One submitted transaction, with the environment inputs it consumes: the
payment and proof validity for a purchase, the two random source outputs for
a draw, the external call outcome for a withdrawal. View functions mutate
nothing and are omitted. -/
inductive Op where
  | buy (sender msgValue firstChoice secondChoice : Nat) (proofOk : Bool) : Op
  | draw (sender r1 r2 : Nat) : Op
  | withdrawTo (sender recipient amount : Nat) (transferOk : Bool) : Op
deriving DecidableEq

/-- Apply one transaction: a reverted call leaves the state unchanged. -/
def applyOp (s : ContractState) (op : Op) : ContractState :=
  match op with
  | Op.buy sender v f g pr =>
    match buyTicket s sender v f g pr with
    | Except.ok s1 => s1
    | Except.error _ => s
  | Op.draw sender r1 r2 =>
    match startDraw s sender r1 r2 with
    | Except.ok s1 => s1
    | Except.error _ => s
  | Op.withdrawTo sender recipient amount tok =>
    match withdraw s sender recipient amount tok with
    | Except.ok s1 => s1
    | Except.error _ => s

/-- Run a sequence of transactions. -/
def run (s : ContractState) (ops : List Op) : ContractState :=
  ops.foldl applyOp s

/-- One full lottery round of a player: the two guesses submitted at
purchase and the two random source outputs consumed by the draw. -/
structure Round where
  firstChoice : Nat
  secondChoice : Nat
  r1 : Nat
  r2 : Nat
deriving DecidableEq

/-- The two transactions of one round: a correctly paid, correctly proved
purchase followed by the draw. -/
def roundOps (a : Nat) (rd : Round) : List Op :=
  [Op.buy a TICKET_PRICE rd.firstChoice rd.secondChoice true, Op.draw a rd.r1 rd.r2]

/-- Play a list of rounds for one player. -/
def playRounds (s : ContractState) (a : Nat) (rs : List Round) : ContractState :=
  run s (rs.map (roundOps a)).flatten

/-- The plaintext reward a round pays: the reward computation applied to the
imported guesses and the two drawn winning numbers of the round. -/
def rewardOfRound (rd : Round) : Nat :=
  (_calculateReward (FHE.fromExternal rd.firstChoice) (FHE.fromExternal rd.secondChoice)
    (_randomTicketNumber rd.r1) (_randomTicketNumber rd.r2)).val

/-- Sum of the plaintext rewards of a list of rounds. -/
def sumRewards (rs : List Round) : Nat := (rs.map rewardOfRound).sum

/-- The plaintext value of the stored encryptedPoints of a player. -/
def pointsVal (s : ContractState) (a : Nat) : Nat :=
  ((s.players a).encryptedPoints.getD zeroCipher).val

/-- The plaintext reward a draw pays in state s: the reward computation
applied to the stored guesses and the two freshly drawn winning numbers. -/
def drawReward (s : ContractState) (sender r1 r2 : Nat) : Nat :=
  (_calculateReward ((s.players sender).firstGuess.getD zeroCipher)
    ((s.players sender).secondGuess.getD zeroCipher)
    (_randomTicketNumber r1) (_randomTicketNumber r2)).val

/-- A ciphertext slot, once written, carries decrypt capability for exactly
the contract itself and the given owner, in that grant order. -/
def aclOk (a : Nat) (oc : Option Cipher) : Prop :=
  ∀ c, oc = some c → c.acl = [Grantee.system, Grantee.user a]

/-- Every written ciphertext slot of the record of player a carries exactly
the two standing grants: the contract and a. -/
def recordAclOk (a : Nat) (p : PlayerState) : Prop :=
  aclOk a p.firstGuess ∧ aclOk a p.secondGuess ∧ aclOk a p.encryptedPoints
    ∧ aclOk a p.lastWinningFirst ∧ aclOk a p.lastWinningSecond

/-- The two-grant capability invariant over the whole players mapping. -/
def stateAclOk (s : ContractState) : Prop := ∀ a, recordAclOk a (s.players a)

/-
Helper lemmas: how each transaction rewrites the state.
-/

theorem setPlayer_players (s : ContractState) (a b : Nat) (p : PlayerState) :
    (setPlayer s a p).players b = if b = a then p else s.players b := rfl

theorem calcReward_acl (g1 g2 w1 w2 : Cipher) : (_calculateReward g1 g2 w1 w2).acl = [] := rfl

/-- The plaintext value the reward computation produces, as a case split on
the two coordinate matches. -/
theorem calcReward_val (g1 g2 w1 w2 : Cipher) :
    (_calculateReward g1 g2 w1 w2).val =
      if g1.val = w1.val then (if g2.val = w2.val then 1000 else 100)
      else (if g2.val = w2.val then 100 else 0) := by
  by_cases h1 : g1.val = w1.val <;> by_cases h2 : g2.val = w2.val <;>
    simp [_calculateReward, FHE.eq, FHE.select, FHE.add, FHE.asEuint32, W32, h1, h2]

/-- Effect of a submitted buyTicket transaction: on a correct payment, no
active ticket and a valid proof it writes the two imported guesses with the
two standing grants, raises hasTicket, clears hasResult, counts the ticket
and credits the payment; otherwise it reverts and the state is unchanged. -/
theorem applyOp_buy (s : ContractState) (sender v f g : Nat) (pr : Bool) :
    applyOp s (Op.buy sender v f g pr) =
      if v = TICKET_PRICE ∧ (s.players sender).hasTicket = false ∧ pr = true
      then { setPlayer s sender
              { s.players sender with
                firstGuess := some ⟨f % W32, [Grantee.system, Grantee.user sender]⟩
                secondGuess := some ⟨g % W32, [Grantee.system, Grantee.user sender]⟩
                hasTicket := true
                hasResult := false } with
             totalTickets := s.totalTickets + 1
             balance := s.balance + v }
      else s := by
  by_cases hv : v = TICKET_PRICE
  · by_cases ht : (s.players sender).hasTicket
    · simp [applyOp, buyTicket, hv, ht]
    · cases pr
      · simp [applyOp, buyTicket, hv, ht]
      · simp [applyOp, buyTicket, hv, ht, FHE.fromExternal, FHE.allowThis, FHE.allow]
  · simp [applyOp, buyTicket, hv]

/-- Effect of a submitted startDraw transaction: with an active ticket it
stores the two drawn numbers with the two standing grants, flips the ticket
flag off and the result flag on, accrues the reward into the points slot
(wrapping euint32 addition when points already exist) and counts the draw;
without a ticket it reverts and the state is unchanged. -/
theorem applyOp_draw (s : ContractState) (sender r1 r2 : Nat) :
    applyOp s (Op.draw sender r1 r2) =
      if (s.players sender).hasTicket = true
      then { setPlayer s sender
              { s.players sender with
                lastWinningFirst :=
                  some ⟨(_randomTicketNumber r1).val, [Grantee.system, Grantee.user sender]⟩
                lastWinningSecond :=
                  some ⟨(_randomTicketNumber r2).val, [Grantee.system, Grantee.user sender]⟩
                hasTicket := false
                hasResult := true
                encryptedPoints :=
                  some ⟨(if (s.players sender).hasPoints = true
                      then (pointsVal s sender + drawReward s sender r1 r2) % W32
                      else drawReward s sender r1 r2),
                    [Grantee.system, Grantee.user sender]⟩
                hasPoints := true } with
             totalDraws := s.totalDraws + 1 }
      else s := by
  by_cases ht : (s.players sender).hasTicket
  · by_cases hp : (s.players sender).hasPoints
    · simp [applyOp, startDraw, ht, hp, drawReward, pointsVal, FHE.add, FHE.allowThis, FHE.allow,
        _randomTicketNumber, FHE.randEuint32, FHE.rem, FHE.asEuint32]
    · simp [applyOp, startDraw, ht, hp, drawReward, pointsVal, FHE.add, FHE.allowThis, FHE.allow,
        _randomTicketNumber, FHE.randEuint32, FHE.rem, FHE.asEuint32, calcReward_acl]
  · simp [applyOp, startDraw, ht]

/-- Effect of a submitted withdraw transaction: by the owner, to a nonzero
recipient, within the balance and with the transfer accepted it debits
exactly the amount; otherwise it reverts and the state is unchanged. -/
theorem applyOp_withdrawTo (s : ContractState) (sender recipient amount : Nat) (tok : Bool) :
    applyOp s (Op.withdrawTo sender recipient amount tok) =
      if sender = s.owner ∧ recipient ≠ 0 ∧ amount ≤ s.balance ∧ tok = true
      then { s with balance := s.balance - amount }
      else s := by
  by_cases ho : sender = s.owner
  · by_cases hr : recipient = 0
    · simp [applyOp, withdraw, ho, hr]
    · by_cases hb : s.balance < amount
      · have hba : ¬ amount ≤ s.balance := not_le.mpr hb
        simp [applyOp, withdraw, ho, hr, hb, hba]
      · have hba : amount ≤ s.balance := not_lt.mp hb
        cases tok
        · simp [applyOp, withdraw, ho, hr, hb, hba]
        · simp [applyOp, withdraw, ho, hr, hb, hba]
  · simp [applyOp, withdraw, ho]

theorem buyTicket_ok_cond (s s1 : ContractState) (a v f g : Nat) (pr : Bool)
    (h : buyTicket s a v f g pr = Except.ok s1) :
    v = TICKET_PRICE ∧ (s.players a).hasTicket = false ∧ pr = true := by
  by_cases hv : v = TICKET_PRICE
  · by_cases ht : (s.players a).hasTicket
    · rw [buyTicket] at h
      simp [hv, ht] at h
    · cases pr
      · rw [buyTicket] at h
        simp [hv, ht] at h
      · exact ⟨hv, by simpa using ht, rfl⟩
  · rw [buyTicket] at h
    simp [hv] at h

theorem buyTicket_ok_state (s s1 : ContractState) (a v f g : Nat) (pr : Bool)
    (h : buyTicket s a v f g pr = Except.ok s1) :
    s1 = applyOp s (Op.buy a v f g pr) := by
  simp [applyOp, h]

theorem hasPoints_mono_step (s : ContractState) (op : Op) (a : Nat)
    (h : (s.players a).hasPoints = true) : ((applyOp s op).players a).hasPoints = true := by
  cases op with
  | buy sender v f g pr =>
    rw [applyOp_buy]
    by_cases hc : v = TICKET_PRICE ∧ (s.players sender).hasTicket = false ∧ pr = true
    · rw [if_pos hc]
      by_cases ha : a = sender
      · subst ha
        simpa [setPlayer_players] using h
      · simpa [setPlayer_players, ha] using h
    · rw [if_neg hc]
      exact h
  | draw sender r1 r2 =>
    rw [applyOp_draw]
    by_cases hc : (s.players sender).hasTicket = true
    · rw [if_pos hc]
      by_cases ha : a = sender
      · subst ha
        simp [setPlayer_players]
      · simpa [setPlayer_players, ha] using h
    · rw [if_neg hc]
      exact h
  | withdrawTo sender recipient amount tok =>
    rw [applyOp_withdrawTo]
    by_cases hc : sender = s.owner ∧ recipient ≠ 0 ∧ amount ≤ s.balance ∧ tok = true
    · rw [if_pos hc]
      exact h
    · rw [if_neg hc]
      exact h

theorem hasResult_step (s : ContractState) (op : Op) (a : Nat)
    (h : (s.players a).hasResult = true)
    (hnb : ∀ v f g pr, op ≠ Op.buy a v f g pr) :
    ((applyOp s op).players a).hasResult = true := by
  cases op with
  | buy sender v f g pr =>
    have hs : a ≠ sender := by
      intro he
      exact hnb v f g pr (by rw [he])
    rw [applyOp_buy]
    by_cases hc : v = TICKET_PRICE ∧ (s.players sender).hasTicket = false ∧ pr = true
    · rw [if_pos hc]
      simpa [setPlayer_players, hs] using h
    · rw [if_neg hc]
      exact h
  | draw sender r1 r2 =>
    rw [applyOp_draw]
    by_cases hc : (s.players sender).hasTicket = true
    · rw [if_pos hc]
      by_cases ha : a = sender
      · subst ha
        simp [setPlayer_players]
      · simpa [setPlayer_players, ha] using h
    · rw [if_neg hc]
      exact h
  | withdrawTo sender recipient amount tok =>
    rw [applyOp_withdrawTo]
    by_cases hc : sender = s.owner ∧ recipient ≠ 0 ∧ amount ≤ s.balance ∧ tok = true
    · rw [if_pos hc]
      exact h
    · rw [if_neg hc]
      exact h

theorem hasTicket_step (s : ContractState) (op : Op) (a : Nat)
    (h : (s.players a).hasTicket = true)
    (hnd : ∀ r1 r2, op ≠ Op.draw a r1 r2) :
    ((applyOp s op).players a).hasTicket = true := by
  cases op with
  | buy sender v f g pr =>
    rw [applyOp_buy]
    by_cases hc : v = TICKET_PRICE ∧ (s.players sender).hasTicket = false ∧ pr = true
    · rw [if_pos hc]
      by_cases ha : a = sender
      · exact absurd (ha ▸ h) (by simp [hc.2.1])
      · simpa [setPlayer_players, ha] using h
    · rw [if_neg hc]
      exact h
  | draw sender r1 r2 =>
    have hs : a ≠ sender := by
      intro he
      exact hnd r1 r2 (by rw [he])
    rw [applyOp_draw]
    by_cases hc : (s.players sender).hasTicket = true
    · rw [if_pos hc]
      simpa [setPlayer_players, hs] using h
    · rw [if_neg hc]
      exact h
  | withdrawTo sender recipient amount tok =>
    rw [applyOp_withdrawTo]
    by_cases hc : sender = s.owner ∧ recipient ≠ 0 ∧ amount ≤ s.balance ∧ tok = true
    · rw [if_pos hc]
      exact h
    · rw [if_neg hc]
      exact h

theorem run_cons (s : ContractState) (op : Op) (ops : List Op) :
    run s (op :: ops) = run (applyOp s op) ops := rfl

theorem run_append (s : ContractState) (l1 l2 : List Op) :
    run s (l1 ++ l2) = run (run s l1) l2 := by
  simp [run, List.foldl_append]

theorem hasPoints_mono_run (s : ContractState) (ops : List Op) (a : Nat)
    (h : (s.players a).hasPoints = true) : ((run s ops).players a).hasPoints = true := by
  induction ops generalizing s with
  | nil => exact h
  | cons op ops ih =>
    rw [run_cons]
    exact ih (applyOp s op) (hasPoints_mono_step s op a h)

theorem hasResult_run (s : ContractState) (ops : List Op) (a : Nat)
    (h : (s.players a).hasResult = true)
    (hnb : ∀ op ∈ ops, ∀ v f g pr, op ≠ Op.buy a v f g pr) :
    ((run s ops).players a).hasResult = true := by
  induction ops generalizing s with
  | nil => exact h
  | cons op ops ih =>
    rw [run_cons]
    exact ih (applyOp s op)
      (hasResult_step s op a h (hnb op (List.mem_cons_self op ops)))
      (fun op2 hm => hnb op2 (List.mem_cons_of_mem op hm))

theorem hasTicket_run (s : ContractState) (ops : List Op) (a : Nat)
    (h : (s.players a).hasTicket = true)
    (hnd : ∀ op ∈ ops, ∀ r1 r2, op ≠ Op.draw a r1 r2) :
    ((run s ops).players a).hasTicket = true := by
  induction ops generalizing s with
  | nil => exact h
  | cons op ops ih =>
    rw [run_cons]
    exact ih (applyOp s op)
      (hasTicket_step s op a h (hnd op (List.mem_cons_self op ops)))
      (fun op2 hm => hnd op2 (List.mem_cons_of_mem op hm))

theorem buy_players_self (s : ContractState) (a f g : Nat)
    (ht : (s.players a).hasTicket = false) :
    (applyOp s (Op.buy a TICKET_PRICE f g true)).players a =
      { s.players a with
        firstGuess := some ⟨f % W32, [Grantee.system, Grantee.user a]⟩
        secondGuess := some ⟨g % W32, [Grantee.system, Grantee.user a]⟩
        hasTicket := true
        hasResult := false } := by
  rw [applyOp_buy, if_pos ⟨rfl, ht, rfl⟩]
  simp [setPlayer_players]

theorem draw_players_self (s : ContractState) (a r1 r2 : Nat)
    (ht : (s.players a).hasTicket = true) :
    (applyOp s (Op.draw a r1 r2)).players a =
      { s.players a with
        lastWinningFirst :=
          some ⟨(_randomTicketNumber r1).val, [Grantee.system, Grantee.user a]⟩
        lastWinningSecond :=
          some ⟨(_randomTicketNumber r2).val, [Grantee.system, Grantee.user a]⟩
        hasTicket := false
        hasResult := true
        encryptedPoints :=
          some ⟨(if (s.players a).hasPoints = true
              then (pointsVal s a + drawReward s a r1 r2) % W32
              else drawReward s a r1 r2),
            [Grantee.system, Grantee.user a]⟩
        hasPoints := true } := by
  rw [applyOp_draw, if_pos ht]
  simp [setPlayer_players]

theorem rewardOfRound_cases (rd : Round) :
    rewardOfRound rd = 0 ∨ rewardOfRound rd = 100 ∨ rewardOfRound rd = 1000 := by
  unfold rewardOfRound
  rw [calcReward_val]
  by_cases h1 : (FHE.fromExternal rd.firstChoice).val = (_randomTicketNumber rd.r1).val <;>
    by_cases h2 : (FHE.fromExternal rd.secondChoice).val = (_randomTicketNumber rd.r2).val <;>
    simp [h1, h2]

theorem rewardOfRound_lt (rd : Round) : rewardOfRound rd < W32 := by
  rcases rewardOfRound_cases rd with h | h | h <;> rw [h] <;> norm_num [W32]

theorem playRound_points (s : ContractState) (a : Nat) (rd : Round)
    (ht : (s.players a).hasTicket = false)
    (hz : (s.players a).hasPoints = false → (s.players a).encryptedPoints = none) :
    pointsVal (run s (roundOps a rd)) a = (pointsVal s a + rewardOfRound rd) % W32
    ∧ ((run s (roundOps a rd)).players a).hasTicket = false
    ∧ ((run s (roundOps a rd)).players a).hasPoints = true := by
  have e1 : run s (roundOps a rd)
      = applyOp (applyOp s (Op.buy a TICKET_PRICE rd.firstChoice rd.secondChoice true))
          (Op.draw a rd.r1 rd.r2) := rfl
  have hp1 := buy_players_self s a rd.firstChoice rd.secondChoice ht
  have ht1 : ((applyOp s (Op.buy a TICKET_PRICE rd.firstChoice rd.secondChoice true)).players a).hasTicket
      = true := by
    rw [hp1]
  have h2 := draw_players_self
    (applyOp s (Op.buy a TICKET_PRICE rd.firstChoice rd.secondChoice true)) a rd.r1 rd.r2 ht1
  have hr : drawReward (applyOp s (Op.buy a TICKET_PRICE rd.firstChoice rd.secondChoice true))
      a rd.r1 rd.r2 = rewardOfRound rd := by
    unfold drawReward rewardOfRound
    rw [hp1, calcReward_val, calcReward_val]
    simp [FHE.fromExternal]
  have hpv : pointsVal (applyOp s (Op.buy a TICKET_PRICE rd.firstChoice rd.secondChoice true)) a
      = pointsVal s a := by
    unfold pointsVal
    rw [hp1]
  have hpp : ((applyOp s (Op.buy a TICKET_PRICE rd.firstChoice rd.secondChoice true)).players a).hasPoints
      = (s.players a).hasPoints := by
    rw [hp1]
  rw [e1]
  refine ⟨?_, by rw [h2], by rw [h2]⟩
  unfold pointsVal
  rw [h2]
  simp only [Option.getD_some]
  rw [hpp, hpv, hr]
  by_cases hp : (s.players a).hasPoints = true
  · simp [hp, pointsVal]
  · have hp0 : (s.players a).hasPoints = false := by
      cases hhp : (s.players a).hasPoints
      · rfl
      · exact absurd hhp hp
    have hz0 : (s.players a).encryptedPoints = none := hz hp0
    simp only [hp0]
    unfold pointsVal
    rw [hz0]
    simp [zeroCipher, Nat.mod_eq_of_lt (rewardOfRound_lt rd)]


theorem playRounds_cons (s : ContractState) (a : Nat) (rd : Round) (rs : List Round) :
    playRounds s a (rd :: rs) = playRounds (run s (roundOps a rd)) a rs := by
  simp [playRounds, run_append]

theorem playRounds_points_general (a : Nat) (rs : List Round) : ∀ (s : ContractState),
    (s.players a).hasTicket = false →
    ((s.players a).hasPoints = false → (s.players a).encryptedPoints = none) →
    pointsVal s a < W32 →
    (pointsVal (playRounds s a rs) a = (pointsVal s a + sumRewards rs) % W32
     ∧ ((playRounds s a rs).players a).hasTicket = false
     ∧ (((playRounds s a rs).players a).hasPoints = false →
         ((playRounds s a rs).players a).encryptedPoints = none)
     ∧ pointsVal (playRounds s a rs) a < W32) := by
  induction rs with
  | nil =>
    intro s ht hz hlt
    refine ⟨?_, ht, hz, hlt⟩
    simp [playRounds, run, sumRewards, Nat.mod_eq_of_lt hlt]
  | cons rd rs ih =>
    intro s ht hz hlt
    have hstep := playRound_points s a rd ht hz
    have hlt2 : pointsVal (run s (roundOps a rd)) a < W32 := by
      rw [hstep.1]
      exact Nat.mod_lt _ (by norm_num [W32])
    have hz2 : ((run s (roundOps a rd)).players a).hasPoints = false →
        ((run s (roundOps a rd)).players a).encryptedPoints = none := by
      intro hfp
      rw [hstep.2.2] at hfp
      exact absurd hfp (by simp)
    have h2 := ih (run s (roundOps a rd)) hstep.2.1 hz2 hlt2
    rw [playRounds_cons]
    refine ⟨?_, h2.2.1, h2.2.2.1, h2.2.2.2⟩
    rw [h2.1, hstep.1]
    rw [Nat.mod_add_mod]
    have hsums : sumRewards (rd :: rs) = rewardOfRound rd + sumRewards rs := by
      simp [sumRewards]
    rw [hsums, Nat.add_assoc]

theorem sumRewards_append (l1 l2 : List Round) :
    sumRewards (l1 ++ l2) = sumRewards l1 + sumRewards l2 := by
  simp [sumRewards]

theorem pointsVal_init (d a : Nat) : pointsVal (initState d) a = 0 := rfl

theorem sumRewards_replicate (n : Nat) (rd : Round) :
    sumRewards (List.replicate n rd) = n * rewardOfRound rd := by
  simp [sumRewards, List.map_replicate, List.sum_replicate, smul_eq_mul]

theorem buy_players_other (s : ContractState) (sender v f g : Nat) (pr : Bool) (b : Nat)
    (hb : b ≠ sender) :
    (applyOp s (Op.buy sender v f g pr)).players b = s.players b := by
  rw [applyOp_buy]
  by_cases hc : v = TICKET_PRICE ∧ (s.players sender).hasTicket = false ∧ pr = true
  · rw [if_pos hc]
    simp [setPlayer_players, hb]
  · rw [if_neg hc]

theorem draw_players_other (s : ContractState) (sender r1 r2 : Nat) (b : Nat)
    (hb : b ≠ sender) :
    (applyOp s (Op.draw sender r1 r2)).players b = s.players b := by
  rw [applyOp_draw]
  by_cases hc : (s.players sender).hasTicket = true
  · rw [if_pos hc]
    simp [setPlayer_players, hb]
  · rw [if_neg hc]

theorem withdraw_players (s : ContractState) (sender recipient amount : Nat) (tok : Bool)
    (b : Nat) :
    (applyOp s (Op.withdrawTo sender recipient amount tok)).players b = s.players b := by
  rw [applyOp_withdrawTo]
  by_cases hc : sender = s.owner ∧ recipient ≠ 0 ∧ amount ≤ s.balance ∧ tok = true
  · rw [if_pos hc]
  · rw [if_neg hc]

theorem stateAclOk_step (s : ContractState) (op : Op) (h : stateAclOk s) :
    stateAclOk (applyOp s op) := by
  cases op with
  | buy sender v f g pr =>
    intro a
    by_cases ha : a = sender
    · subst ha
      by_cases hc : v = TICKET_PRICE ∧ (s.players a).hasTicket = false ∧ pr = true
      · obtain ⟨hv, ht2, hp2⟩ := hc
        subst hv
        subst hp2
        rw [buy_players_self s a f g ht2]
        exact ⟨fun c hcc => (by cases hcc; rfl), fun c hcc => (by cases hcc; rfl),
          (h a).2.2.1, (h a).2.2.2.1, (h a).2.2.2.2⟩
      · rw [applyOp_buy, if_neg hc]
        exact h a
    · rw [buy_players_other s sender v f g pr a ha]
      exact h a
  | draw sender r1 r2 =>
    intro a
    by_cases ha : a = sender
    · subst ha
      by_cases ht2 : (s.players a).hasTicket = true
      · rw [draw_players_self s a r1 r2 ht2]
        exact ⟨(h a).1, (h a).2.1, fun c hcc => (by cases hcc; rfl),
          fun c hcc => (by cases hcc; rfl), fun c hcc => (by cases hcc; rfl)⟩
      · rw [applyOp_draw, if_neg ht2]
        exact h a
    · rw [draw_players_other s sender r1 r2 a ha]
      exact h a
  | withdrawTo sender recipient amount tok =>
    intro a
    rw [withdraw_players]
    exact h a

theorem stateAclOk_run (s : ContractState) (ops : List Op) (h : stateAclOk s) :
    stateAclOk (run s ops) := by
  induction ops generalizing s with
  | nil => exact h
  | cons op ops ih =>
    rw [run_cons]
    exact ih (applyOp s op) (stateAclOk_step s op h)

theorem stateAclOk_init (d : Nat) : stateAclOk (initState d) := by
  intro a
  exact ⟨fun c hc => (by cases hc), fun c hc => (by cases hc), fun c hc => (by cases hc),
    fun c hc => (by cases hc), fun c hc => (by cases hc)⟩

/-
The claims, settled against the embedding above.
-/

/-- C1: for every pair of guess ciphertexts and winning ciphertexts with
plaintext values in [1,9] x [1,9], the reward computation returns a
ciphertext whose plaintext is exactly 1000 when both coordinates match,
exactly 100 when exactly one matches, exactly 0 otherwise, and never any
value outside 0, 100, 1000. -/
theorem reward_tier_correct (g1 g2 w1 w2 : Cipher)
    (hg1 : 1 ≤ g1.val ∧ g1.val ≤ 9) (hg2 : 1 ≤ g2.val ∧ g2.val ≤ 9)
    (hw1 : 1 ≤ w1.val ∧ w1.val ≤ 9) (hw2 : 1 ≤ w2.val ∧ w2.val ≤ 9) :
    ((_calculateReward g1 g2 w1 w2).val = 1000 ↔ (g1.val = w1.val ∧ g2.val = w2.val))
    ∧ ((_calculateReward g1 g2 w1 w2).val = 100 ↔
        ((g1.val = w1.val ∧ g2.val ≠ w2.val) ∨ (g1.val ≠ w1.val ∧ g2.val = w2.val)))
    ∧ ((_calculateReward g1 g2 w1 w2).val = 0 ↔ (g1.val ≠ w1.val ∧ g2.val ≠ w2.val))
    ∧ ((_calculateReward g1 g2 w1 w2).val = 0 ∨ (_calculateReward g1 g2 w1 w2).val = 100
        ∨ (_calculateReward g1 g2 w1 w2).val = 1000) := by
  simp only [calcReward_val]
  by_cases h1 : g1.val = w1.val <;> by_cases h2 : g2.val = w2.val <;> simp [h1, h2]

/-- C1 witness: the reward for guesses (2,8) against winning numbers (2,8)
decrypts to exactly 1000. -/
theorem reward_tier_correct_witness :
    (_calculateReward ⟨2, []⟩ ⟨8, []⟩ ⟨2, []⟩ ⟨8, []⟩).val = 1000 :=
  (reward_tier_correct ⟨2, []⟩ ⟨8, []⟩ ⟨2, []⟩ ⟨8, []⟩ (by decide) (by decide) (by decide)
    (by decide)).1.mpr (by decide)

/-- C2 counterexample: hasResult does revert to false. Player 5 buys a
ticket and draws, which sets hasResult; a second successful purchase then
resets hasResult to false, because buyTicket assigns hasResult = false. -/
theorem hasResult_reset_cex :
    ((run (initState 1) [Op.buy 5 TICKET_PRICE 2 8 true, Op.draw 5 0 0]).players 5).hasResult = true
    ∧ (buyTicket (run (initState 1) [Op.buy 5 TICKET_PRICE 2 8 true, Op.draw 5 0 0])
        5 TICKET_PRICE 1 1 true).isOk = true
    ∧ ((run (initState 1) [Op.buy 5 TICKET_PRICE 2 8 true, Op.draw 5 0 0,
        Op.buy 5 TICKET_PRICE 1 1 true]).players 5).hasResult = false := by
  exact ⟨by decide, by decide, by decide⟩

/-- C2 (amended): across any sequence of transactions, hasPoints once true
never becomes false again; hasResult once true stays true under every
transaction except a buyTicket by that same player, which resets it while
the new ticket is active. -/
theorem flags_never_unset (s : ContractState) (a : Nat) (ops : List Op) :
    ((s.players a).hasPoints = true → ((run s ops).players a).hasPoints = true)
    ∧ ((s.players a).hasResult = true →
        (∀ op ∈ ops, ∀ v f g pr, op ≠ Op.buy a v f g pr) →
        ((run s ops).players a).hasResult = true) :=
  ⟨fun h => hasPoints_mono_run s ops a h, fun h hnb => hasResult_run s ops a h hnb⟩

/-- C3: for every output of the underlying encrypted random source, the
bounded digit generator returns a ciphertext whose plaintext lies in [1,9]
inclusive. -/
theorem randomTicketNumber_in_range (r : Nat) :
    1 ≤ (_randomTicketNumber r).val ∧ (_randomTicketNumber r).val ≤ 9 := by
  have h9 : r % W32 % 9 < 9 := Nat.mod_lt _ (by norm_num)
  simp only [_randomTicketNumber, FHE.randEuint32, FHE.rem, FHE.add, FHE.asEuint32, W32] at *
  omega

/-- C4 (amended): after any sequence of rounds whose total reward sum stays
below 2 ^ 32, the plaintext of encryptedPoints equals the sum of the
individual rewards, each reward is one of 0, 100, 1000, and the points value
after any leading part of the sequence never exceeds the final value, so the
points are non-decreasing draw by draw. Without the bound the euint32
accumulator wraps modulo 2 ^ 32. -/
theorem points_sum_of_rewards (d a : Nat) (rs rs1 rs2 : List Round)
    (hsplit : rs = rs1 ++ rs2) (hsum : sumRewards rs < W32) :
    pointsVal (playRounds (initState d) a rs) a = sumRewards rs
    ∧ pointsVal (playRounds (initState d) a rs1) a
        ≤ pointsVal (playRounds (initState d) a rs) a
    ∧ (∀ rd ∈ rs, rewardOfRound rd = 0 ∨ rewardOfRound rd = 100 ∨ rewardOfRound rd = 1000) := by
  have hsum1 : sumRewards rs1 ≤ sumRewards rs := by
    rw [hsplit, sumRewards_append]
    exact Nat.le_add_right _ _
  have h := (playRounds_points_general a rs (initState d) rfl (fun _ => rfl)
    (by norm_num [pointsVal_init, W32])).1
  have h1 := (playRounds_points_general a rs1 (initState d) rfl (fun _ => rfl)
    (by norm_num [pointsVal_init, W32])).1
  rw [pointsVal_init] at h h1
  rw [Nat.zero_add] at h h1
  rw [Nat.mod_eq_of_lt hsum] at h
  rw [Nat.mod_eq_of_lt (Nat.lt_of_le_of_lt hsum1 hsum)] at h1
  exact ⟨h, by rw [h, h1]; exact hsum1, fun rd _ => rewardOfRound_cases rd⟩

/-- C4 witness: one winning round pays 1000 points and the accounting
matches the reward sum. -/
theorem points_sum_of_rewards_witness :
    pointsVal (playRounds (initState 1) 5 [⟨2, 8, 1, 7⟩]) 5 = sumRewards [⟨2, 8, 1, 7⟩]
    ∧ pointsVal (playRounds (initState 1) 5 []) 5
        ≤ pointsVal (playRounds (initState 1) 5 [⟨2, 8, 1, 7⟩]) 5
    ∧ (∀ rd ∈ [(⟨2, 8, 1, 7⟩ : Round)],
        rewardOfRound rd = 0 ∨ rewardOfRound rd = 100 ∨ rewardOfRound rd = 1000) :=
  points_sum_of_rewards 1 5 [⟨2, 8, 1, 7⟩] [] [⟨2, 8, 1, 7⟩] rfl (by decide)

/-- C4 counterexample: after 4294968 rounds that each pay 1000 points, the
stored euint32 points value has wrapped modulo 2 ^ 32 and no longer equals
the reward sum 4294968000, so the unrestricted claim fails. -/
theorem points_sum_overflow_cex :
    pointsVal (playRounds (initState 1) 5 (List.replicate 4294968 ⟨1, 1, 0, 0⟩)) 5
      ≠ sumRewards (List.replicate 4294968 ⟨1, 1, 0, 0⟩) := by
  have hone : rewardOfRound ⟨1, 1, 0, 0⟩ = 1000 := by decide
  have hs : sumRewards (List.replicate 4294968 (⟨1, 1, 0, 0⟩ : Round)) = 4294968000 := by
    rw [sumRewards_replicate, hone]
  have h := (playRounds_points_general 5 (List.replicate 4294968 ⟨1, 1, 0, 0⟩) (initState 1)
    rfl (fun _ => rfl) (by norm_num [pointsVal_init, W32])).1
  rw [pointsVal_init, Nat.zero_add, hs] at h
  rw [h, hs]
  norm_num [W32]

/-- C5: in every state reachable from deployment by any sequence of
transactions, every ciphertext stored in any player record carries decrypt
capability for exactly two identities: the contract itself and the owning
player, and never a third one. -/
theorem acl_exactly_two_grants (d : Nat) (ops : List Op) :
    stateAclOk (run (initState d) ops) :=
  stateAclOk_run (initState d) ops (stateAclOk_init d)

/-- C6: buyTicket with a payment different from TICKET_PRICE fails with
InvalidPayment and the whole state, the callers record included, is exactly
as before the call. -/
theorem buyTicket_price_gate (s : ContractState) (sender v f g : Nat) (pr : Bool)
    (hv : v ≠ TICKET_PRICE) :
    buyTicket s sender v f g pr = Except.error Err.InvalidPayment
    ∧ applyOp s (Op.buy sender v f g pr) = s := by
  constructor
  · rw [buyTicket]
    simp [hv]
  · rw [applyOp_buy, if_neg (fun hc => hv hc.1)]

/-- C6 witness: a zero payment is rejected with InvalidPayment and the
deployment state is unchanged. -/
theorem buyTicket_price_gate_witness :
    buyTicket (initState 1) 5 0 2 8 true = Except.error Err.InvalidPayment
    ∧ applyOp (initState 1) (Op.buy 5 0 2 8 true) = initState 1 :=
  buyTicket_price_gate (initState 1) 5 0 2 8 true (by decide)

/-- C7 counterexample: after a successful purchase, a second buyTicket with
the wrong payment fails with InvalidPayment, not TicketAlreadyActive: the
price check runs before the active-ticket check. -/
theorem second_buy_error_cex :
    (buyTicket (initState 1) 5 TICKET_PRICE 2 8 true).isOk = true
    ∧ buyTicket (applyOp (initState 1) (Op.buy 5 TICKET_PRICE 2 8 true)) 5 0 1 1 true
        = Except.error Err.InvalidPayment
    ∧ Err.InvalidPayment ≠ Err.TicketAlreadyActive := by
  exact ⟨by decide, rfl, by decide⟩

/-- C7 (amended): after a successful buyTicket and any transactions that do
not include a startDraw by that player, every further buyTicket by the same
player fails: with TicketAlreadyActive when the payment is correct, with
InvalidPayment otherwise, because the price gate is checked first. -/
theorem second_buy_rejected (s s1 : ContractState) (a v1 f1 g1 : Nat) (p1 : Bool)
    (ops : List Op) (v2 f2 g2 : Nat) (p2 : Bool)
    (hbuy : buyTicket s a v1 f1 g1 p1 = Except.ok s1)
    (hops : ∀ op ∈ ops, ∀ r1 r2, op ≠ Op.draw a r1 r2) :
    buyTicket (run s1 ops) a v2 f2 g2 p2 =
      Except.error (if v2 = TICKET_PRICE then Err.TicketAlreadyActive
        else Err.InvalidPayment) := by
  obtain ⟨hv, ht, hp⟩ := buyTicket_ok_cond s s1 a v1 f1 g1 p1 hbuy
  have hs1 := buyTicket_ok_state s s1 a v1 f1 g1 p1 hbuy
  subst hv
  subst hp
  have ht1 : (s1.players a).hasTicket = true := by
    rw [hs1, buy_players_self s a f1 g1 ht]
  have ht2 : ((run s1 ops).players a).hasTicket = true := hasTicket_run s1 ops a ht1 hops
  by_cases hv2 : v2 = TICKET_PRICE
  · rw [if_pos hv2, buyTicket]
    simp [hv2, ht2]
  · rw [if_neg hv2, buyTicket]
    simp [hv2]

/-- C7 witness: a correctly paid second purchase right after a successful
one fails with TicketAlreadyActive. -/
theorem second_buy_rejected_witness :
    buyTicket (run (applyOp (initState 1) (Op.buy 5 TICKET_PRICE 2 8 true)) [])
        5 TICKET_PRICE 3 4 true
      = Except.error (if TICKET_PRICE = TICKET_PRICE then Err.TicketAlreadyActive
        else Err.InvalidPayment) :=
  second_buy_rejected (initState 1) (applyOp (initState 1) (Op.buy 5 TICKET_PRICE 2 8 true))
    5 TICKET_PRICE 2 8 true [] TICKET_PRICE 3 4 true rfl (by simp)

/-- C8: withdraw by anyone other than the owner fails with NotOwner and
leaves the whole state, the balance included, unchanged; withdraw by the
owner to a nonzero recipient for an amount within the held balance, with the
transfer accepted by the recipient, succeeds and decreases the balance by
exactly that amount. -/
theorem withdraw_owner_gate (s : ContractState) (sender recipient amount : Nat) (tok : Bool) :
    (sender ≠ s.owner →
      withdraw s sender recipient amount tok = Except.error Err.NotOwner
      ∧ applyOp s (Op.withdrawTo sender recipient amount tok) = s)
    ∧ (sender = s.owner → recipient ≠ 0 → amount ≤ s.balance → tok = true →
      withdraw s sender recipient amount tok
        = Except.ok { s with balance := s.balance - amount }) := by
  constructor
  · intro hne
    constructor
    · rw [withdraw]
      simp [hne]
    · rw [applyOp_withdrawTo, if_neg (fun hc => hne hc.1)]
  · intro ho hr hb htok
    subst htok
    rw [withdraw]
    simp [ho, hr, not_lt.mpr hb]

/-- C9: every read-only query returns the same ciphertext handles and
boolean flags whichever identity requests them, and returns the state
unchanged; the result types carry nothing but handles and flags. -/
theorem queries_requester_blind (s : ContractState) (u req1 req2 : Nat) :
    (getTicket s req1 u = getTicket s req2 u ∧ (getTicket s req1 u).2 = s)
    ∧ (getLastWinningNumbers s req1 u = getLastWinningNumbers s req2 u
        ∧ (getLastWinningNumbers s req1 u).2 = s)
    ∧ (getEncryptedPoints s req1 u = getEncryptedPoints s req2 u
        ∧ (getEncryptedPoints s req1 u).2 = s)
    ∧ (getPlayerStatus s req1 u = getPlayerStatus s req2 u
        ∧ (getPlayerStatus s req1 u).2 = s) :=
  ⟨⟨rfl, rfl⟩, ⟨rfl, rfl⟩, ⟨rfl, rfl⟩, ⟨rfl, rfl⟩⟩

/-- C10 counterexample: a successful buyTicket also changes the held
balance, which the claim omits from its list of modified locations. -/
theorem buy_changes_balance_cex :
    (buyTicket (initState 1) 5 TICKET_PRICE 2 8 true).isOk = true
    ∧ (applyOp (initState 1) (Op.buy 5 TICKET_PRICE 2 8 true)).balance
        ≠ (initState 1).balance := by
  exact ⟨by decide, by decide⟩

/-- C10 (amended): a successful buyTicket leaves encryptedPoints, hasPoints,
lastWinningFirst and lastWinningSecond of the caller record unchanged, as
well as every other player record, totalDraws and the owner; it modifies
only firstGuess, secondGuess, hasTicket, hasResult, the ticket counter and
the held balance, which grows by exactly TICKET_PRICE. -/
theorem buyTicket_frame (s s1 : ContractState) (sender v f g : Nat) (pr : Bool)
    (h : buyTicket s sender v f g pr = Except.ok s1) :
    (s1.players sender).encryptedPoints = (s.players sender).encryptedPoints
    ∧ (s1.players sender).hasPoints = (s.players sender).hasPoints
    ∧ (s1.players sender).lastWinningFirst = (s.players sender).lastWinningFirst
    ∧ (s1.players sender).lastWinningSecond = (s.players sender).lastWinningSecond
    ∧ (∀ b, b ≠ sender → s1.players b = s.players b)
    ∧ s1.totalDraws = s.totalDraws
    ∧ s1.owner = s.owner
    ∧ s1.totalTickets = s.totalTickets + 1
    ∧ s1.balance = s.balance + TICKET_PRICE
    ∧ (s1.players sender).hasTicket = true
    ∧ (s1.players sender).hasResult = false := by
  obtain ⟨hv, ht, hp⟩ := buyTicket_ok_cond s s1 sender v f g pr h
  have hs1 := buyTicket_ok_state s s1 sender v f g pr h
  subst hv
  subst hp
  have hself := buy_players_self s sender f g ht
  refine ⟨?_, ?_, ?_, ?_, ?_, ?_, ?_, ?_, ?_, ?_, ?_⟩
  · rw [hs1, hself]
  · rw [hs1, hself]
  · rw [hs1, hself]
  · rw [hs1, hself]
  · intro b hb
    rw [hs1, buy_players_other s sender TICKET_PRICE f g true b hb]
  · rw [hs1, applyOp_buy, if_pos ⟨rfl, ht, rfl⟩]
    simp [setPlayer]
  · rw [hs1, applyOp_buy, if_pos ⟨rfl, ht, rfl⟩]
    simp [setPlayer]
  · rw [hs1, applyOp_buy, if_pos ⟨rfl, ht, rfl⟩]
  · rw [hs1, applyOp_buy, if_pos ⟨rfl, ht, rfl⟩]
  · rw [hs1, hself]
  · rw [hs1, hself]

/-- C10 witness: right after a successful purchase from the deployment
state, the points slot of the buyer is untouched. -/
theorem buyTicket_frame_witness :
    ((applyOp (initState 1) (Op.buy 5 TICKET_PRICE 2 8 true)).players 5).encryptedPoints
      = ((initState 1).players 5).encryptedPoints :=
  (buyTicket_frame (initState 1) (applyOp (initState 1) (Op.buy 5 TICKET_PRICE 2 8 true))
    5 TICKET_PRICE 2 8 true rfl).1


end SecretSphere
